import Mathlib

set_option maxRecDepth 8000

namespace HackerAI

/-!
Shallow embedding of the desktop shell logic in
`src/packages/desktop/src-tauri/src/lib.rs`: token-format validation,
origin allow-listing, the auth deep-link handler, the update-check flow
and the 24-hour update throttle.  Stateful framework calls (window lookup,
navigation, dialogs, install, restart) are modelled as oracle inputs and
an explicit effect trace.
-/

/-- Models Rust `char::is_ascii_hexdigit`: true exactly on the code points
of `0`-`9`, `a`-`f` and `A`-`F`. -/
def is_ascii_hexdigit (c : Char) : Bool :=
  decide ((0x30 ≤ c.toNat ∧ c.toNat ≤ 0x39) ∨ (0x61 ≤ c.toNat ∧ c.toNat ≤ 0x66) ∨
    (0x41 ≤ c.toNat ∧ c.toNat ≤ 0x46))

/-- Models Rust `char::is_ascii_digit`: true exactly on the code points of `0`-`9`. -/
def is_ascii_digit (c : Char) : Bool :=
  decide (0x30 ≤ c.toNat ∧ c.toNat ≤ 0x39)

/-- UTF-8 encoding of one scalar value, as the list of its bytes (the byte
representation that Rust `str` values use). -/
def utf8_encode_char (c : Char) : List UInt8 :=
  let v := c.toNat
  if v < 0x80 then [UInt8.ofNat v]
  else if v < 0x800 then
    [UInt8.ofNat (0xC0 ||| (v >>> 6)), UInt8.ofNat (0x80 ||| (v &&& 0x3F))]
  else if v < 0x10000 then
    [UInt8.ofNat (0xE0 ||| (v >>> 12)), UInt8.ofNat (0x80 ||| ((v >>> 6) &&& 0x3F)),
     UInt8.ofNat (0x80 ||| (v &&& 0x3F))]
  else
    [UInt8.ofNat (0xF0 ||| (v >>> 18)), UInt8.ofNat (0x80 ||| ((v >>> 12) &&& 0x3F)),
     UInt8.ofNat (0x80 ||| ((v >>> 6) &&& 0x3F)), UInt8.ofNat (0x80 ||| (v &&& 0x3F))]

/-- UTF-8 byte sequence of a character list. -/
def utf8_bytes : List Char → List UInt8
  | [] => []
  | c :: rest => utf8_encode_char c ++ utf8_bytes rest

/-- Models Rust `str::len`: the number of UTF-8 bytes of the string. -/
def rust_str_len (s : String) : Nat :=
  (utf8_bytes s.data).length

/-- Models `&s[..n]` on an ASCII string (the source only slices a validated
all-hex token): the first `n` characters. -/
def take_chars (s : String) (n : Nat) : String :=
  String.mk (s.data.take n)

/-- Embeds `is_valid_token_format` from `lib.rs`:
`token.len() == 64 && token.chars().all(|c| c.is_ascii_hexdigit())`. -/
def is_valid_token_format (token : String) : Bool :=
  decide (rust_str_len token = 64) && token.data.all is_ascii_hexdigit

/-- Splits a character list on a separator character, mirroring Rust
`str::split` (an empty input gives one empty piece). -/
def split_on_char (sep : Char) : List Char → List (List Char)
  | [] => [[]]
  | c :: rest =>
    let r := split_on_char sep rest
    if c == sep then [] :: r
    else
      match r with
      | [] => [[c]]
      | h :: t => (c :: h) :: t

/-- Models Rust `str::trim` (restricted to the ASCII whitespace that occurs
in the inputs of interest): strips leading and trailing whitespace. -/
def rust_trim (s : String) : String :=
  String.mk (((s.data.dropWhile Char.isWhitespace).reverse.dropWhile Char.isWhitespace).reverse)

/-- Embeds `get_allowed_hosts` from `lib.rs`, with the environment variable
`HACKERAI_ALLOWED_HOSTS` passed explicitly (`none` when unset): a set value is
split on commas and each piece trimmed; otherwise the default list
`hackerai.co`, `localhost`. -/
def get_allowed_hosts (env : Option String) : List String :=
  match env with
  | some hosts => (split_on_char ',' hosts.data).map (fun s => rust_trim (String.mk s))
  | none => ["hackerai.co", "localhost"]

/-- Parsed-URL view used by the handler: the fields of the external
`url::Url` value that `lib.rs` reads (`scheme()`, `host_str()`, `path()`,
and the decoded `query_pairs()`). -/
structure Url where
  scheme : String
  host : Option String
  path : String
  queryPairs : List (String × String)
deriving DecidableEq

/-- Models `url.query_pairs().find(|(k, _)| k == key).map(|(_, v)| v)`:
the value of the first query pair whose key is `key`. -/
def find_pair (pairs : List (String × String)) (key : String) : Option String :=
  (pairs.find? (fun p => p.1 == key)).map (fun p => p.2)

/-- Embeds `validate_origin` from `lib.rs`, parameterised by the external URL
parser `parse` (modelling `url::Url::parse`) and the environment: the origin
must parse, its host must match an allow-listed host exactly, and the scheme
must be `https`, or `http` when the host is exactly `localhost`. -/
def validate_origin (parse : String → Option Url) (env : Option String)
    (origin : String) : Bool :=
  match parse origin with
  | some parsed =>
    let host := parsed.host.getD ""
    let scheme := parsed.scheme
    let allowed_hosts := get_allowed_hosts env
    let is_allowed_host := allowed_hosts.any (fun allowed => host == allowed)
    let is_valid_scheme := scheme == "https" || (host == "localhost" && scheme == "http")
    is_allowed_host && is_valid_scheme
  | none => false

/-- Observable actions of the deep-link handler: log lines and attempted
webview navigations. -/
inductive Effect where
  | logError (msg : String)
  | logWarn (msg : String)
  | logInfo (msg : String)
  | navigate (url : String)
deriving DecidableEq

/-- Embeds the origin selection of `handle_auth_deep_link`:
`url.query_pairs().find(origin).map(to_string).filter(validate_origin)
.unwrap_or_else(production)`.  Returns the chosen origin together with a flag
recording whether the fallback (and its warning) was taken. -/
def select_origin (parse : String → Option Url) (env : Option String)
    (pairs : List (String × String)) : String × Bool :=
  match (find_pair pairs "origin").filter (fun o => validate_origin parse env o) with
  | some o => (o, false)
  | none => ("https://hackerai.co", true)

/-- Models `url::form_urlencoded::byte_serialize` on one byte: ASCII
alphanumerics and `*-._` unchanged, space to `+`, all else percent-encoded
with uppercase hex. -/
def byte_serialize_byte (b : UInt8) : String :=
  let n := b.toNat
  if n = 0x20 then "+"
  else if (0x30 ≤ n ∧ n ≤ 0x39) ∨ (0x41 ≤ n ∧ n ≤ 0x5A) ∨ (0x61 ≤ n ∧ n ≤ 0x7A) ∨
      n = 0x2A ∨ n = 0x2D ∨ n = 0x2E ∨ n = 0x5F then
    String.mk [Char.ofNat n]
  else
    String.mk ['%', Char.ofNat (if n / 16 < 10 then 0x30 + n / 16 else 0x37 + n / 16),
      Char.ofNat (if n % 16 < 10 then 0x30 + n % 16 else 0x37 + n % 16)]

/-- Models `url::form_urlencoded::byte_serialize` over a byte sequence. -/
def byte_serialize : List UInt8 → String
  | [] => ""
  | b :: rest => byte_serialize_byte b ++ byte_serialize rest

/-- Embeds `handle_auth_deep_link` from `lib.rs` as a pure effect trace.
External collaborators are oracle inputs: `parse` models `url::Url::parse`
(also used for `callback_url.parse()`), `hasMainWindow` whether
`app.get_webview_window("main")` is `Some`, and `navOk` whether
`window.navigate` succeeds on a given URL.  The input `url` is the
already-parsed deep link the Rust function receives. -/
def handle_auth_deep_link (parse : String → Option Url) (env : Option String)
    (hasMainWindow : Bool) (navOk : String → Bool) (url : Url) : List Effect :=
  if url.scheme ≠ "hackerai" then []
  else if url.host == some "auth" || url.path == "/auth" || url.path == "auth" then
    match find_pair url.queryPairs "token" with
    | some token =>
      if !is_valid_token_format token then
        [Effect.logError "Invalid token format in deep link"]
      else if hasMainWindow then
        let sel := select_origin parse env url.queryPairs
        let origin := sel.1
        let warnEffects : List Effect :=
          if sel.2 then
            [Effect.logWarn "Deep link has missing or invalid origin, using production"]
          else []
        let encoded_token := byte_serialize (utf8_bytes token.data)
        let callback_url := origin ++ "/desktop-callback?token=" ++ encoded_token
        let navEffects : List Effect :=
          match parse callback_url with
          | some _ =>
            if navOk callback_url then [Effect.navigate callback_url]
            else
              [Effect.navigate callback_url,
               Effect.logError "Failed to navigate to callback URL"] ++
              (let error_url := origin ++ "/login?error=navigation_failed"
               match parse error_url with
               | some _ => [Effect.navigate error_url]
               | none => [])
          | none => [Effect.logError "Invalid callback URL format"]
        warnEffects ++
          [Effect.logInfo
            ("Navigating to desktop callback (token: " ++ take_chars token 8 ++ "...)")] ++
          navEffects
      else []
    | none =>
      match find_pair url.queryPairs "error" with
      | some e => [Effect.logError ("Auth deep link received with error: " ++ e)]
      | none => [Effect.logWarn "Auth deep link received without token"]
  else []

/-- Splits a character list at the first occurrence of `://`, returning the
part before (the scheme) and the part after. -/
def split_scheme : List Char → Option (List Char × List Char)
  | [] => none
  | ':' :: '/' :: '/' :: rest => some ([], rest)
  | c :: rest => (split_scheme rest).map (fun p => (c :: p.1, p.2))

/-- Query-string decomposition into key-value pairs: pieces are separated by
`&` and split at the first `=` (missing `=` gives an empty value). -/
def parse_query_pairs (q : List Char) : List (String × String) :=
  if q.isEmpty then []
  else
    (split_on_char '&' q).map (fun kv =>
      let k := kv.takeWhile (fun c => !(c == '='))
      (String.mk k, String.mk (kv.drop (k.length + 1))))

/-- Models `url::Url::parse` from the external `url` crate, restricted to the
well-formed absolute URLs used in the concrete examples
(`scheme://host[/path][?query]`, no userinfo, port, fragment or
percent-escapes): it succeeds with the evident scheme, host, path and query
decomposition, normalising an empty path to `/` as the crate does for special
schemes, and fails when the `://` separator, the scheme or the host is
missing.  It is only ever used to instantiate the parser oracle of the
universally quantified theorems at concrete inputs. -/
def parse_simple (s : String) : Option Url :=
  match split_scheme s.data with
  | none => none
  | some (schemeChars, rest) =>
    if schemeChars.isEmpty then none
    else
      let hostChars := rest.takeWhile (fun c => !(c == '/') && !(c == '?') && !(c == '#'))
      if hostChars.isEmpty then none
      else
        let afterHost := rest.drop hostChars.length
        let pathChars := afterHost.takeWhile (fun c => !(c == '?') && !(c == '#'))
        let afterPath := afterHost.drop pathChars.length
        let queryChars :=
          match afterPath with
          | '?' :: qs => qs.takeWhile (fun c => !(c == '#'))
          | _ => []
        some
          { scheme := String.mk schemeChars
            host := some (String.mk hostChars)
            path := if pathChars.isEmpty then "/" else String.mk pathChars
            queryPairs := parse_query_pairs queryChars }

/-- Observable actions of `check_for_updates`: log lines, blocking dialogs
(identified by title and message), the download-and-install call, and the
application restart. -/
inductive UpdEffect where
  | logError (msg : String)
  | logWarn (msg : String)
  | logInfo (msg : String)
  | dialog (title : String) (msg : String)
  | install
  | restart
deriving DecidableEq

/-- True exactly on the logging effects of the update flow. -/
def is_log_effect : UpdEffect → Bool
  | UpdEffect.logError _ => true
  | UpdEffect.logWarn _ => true
  | UpdEffect.logInfo _ => true
  | _ => false

deriving instance DecidableEq for Except

/-- Oracle inputs of `check_for_updates`: the results of the external
updater service and the user's answers to the blocking dialogs.
`updater` models `app.updater()`, `checkResult` models `updater.check()`
(`Except.ok (some v)` an available update of version `v`, `Except.ok none`
up to date, `Except.error e` a check failure), `userAccepts` the answer to
the "Update Available" dialog, `installResult` the result of
`update.download_and_install`, and `userRestartNow` the answer to the
"Update Complete" dialog. -/
structure UpdateEnv where
  updater : Except String Unit
  checkResult : Except String (Option String)
  userAccepts : Bool
  installResult : Except String Unit
  userRestartNow : Bool
deriving DecidableEq

/-- Embeds `check_for_updates` from `lib.rs` as a pure effect trace over the
oracle inputs, mirroring the source branch for branch (note that the
available-update branch is not guarded by `silent`). -/
def check_for_updates (env : UpdateEnv) (silent : Bool) : List UpdEffect :=
  match env.updater with
  | Except.error e =>
    if silent then [UpdEffect.logWarn ("Auto-update check failed to get updater: " ++ e)]
    else
      [UpdEffect.logError ("Failed to get updater: " ++ e),
       UpdEffect.dialog "Update Error" ("Failed to check for updates: " ++ e)]
  | Except.ok _ =>
    match env.checkResult with
    | Except.ok (some version) =>
      [UpdEffect.logInfo ("Update available: " ++ version),
       UpdEffect.dialog "Update Available"
         ("A new version (" ++ version ++ ") is available. Would you like to update now?")] ++
      if env.userAccepts then
        [UpdEffect.logInfo ("User accepted update to version " ++ version)] ++
        match env.installResult with
        | Except.error e =>
          [UpdEffect.install, UpdEffect.logError ("Failed to install update: " ++ e),
           UpdEffect.dialog "Update Error" ("Failed to install update: " ++ e)]
        | Except.ok _ =>
          [UpdEffect.install, UpdEffect.logInfo "Update installed successfully",
           UpdEffect.dialog "Update Complete"
             "Update installed successfully. Restart now to apply changes?"] ++
          if env.userRestartNow then [UpdEffect.restart] else []
      else []
    | Except.ok none =>
      if silent then [UpdEffect.logInfo "No updates available (auto-check)"]
      else
        [UpdEffect.logInfo "No updates available",
         UpdEffect.dialog "No Updates" "You're running the latest version."]
    | Except.error e =>
      if silent then [UpdEffect.logWarn ("Auto-update check failed: " ++ e)]
      else
        [UpdEffect.logError ("Failed to check for updates: " ++ e),
         UpdEffect.dialog "Update Error" ("Failed to check for updates: " ++ e)]

/-- The 24-hour interval of `lib.rs`, in seconds
(`UPDATE_CHECK_INTERVAL.as_secs()`). -/
def UPDATE_CHECK_INTERVAL : Nat := 24 * 60 * 60

/-- Models Rust `str::parse::<u64>`: an optional leading `+`, then one or
more ASCII digits whose value fits in 64 bits; anything else fails. -/
def parse_u64 (s : String) : Option Nat :=
  let ds :=
    match s.data with
    | '+' :: rest => rest
    | l => l
  if ds.isEmpty then none
  else if ds.all is_ascii_digit then
    let v := ds.foldl (fun acc c => acc * 10 + (c.toNat - 0x30)) 0
    if v < 2 ^ 64 then some v else none
  else none

/-- Embeds `should_check_for_updates` from `lib.rs`.  `hasDataDir` models
whether `app_data_dir()` (and hence the throttle-file path) is available,
`readResult` the outcome of `fs::read_to_string` (`none` a read error,
which also covers an absent file), and `now` the current POSIX time in
seconds.  The elapsed time uses `u64::saturating_sub`, which on `Nat` is
plain subtraction. -/
def should_check_for_updates (hasDataDir : Bool) (readResult : Option String)
    (now : Nat) : Bool :=
  if !hasDataDir then true
  else
    match readResult with
    | some content =>
      let last_check := (parse_u64 (rust_trim content)).getD 0
      decide (UPDATE_CHECK_INTERVAL ≤ now - last_check)
    | none => true

/-! ### Helper lemmas -/

lemma utf8_len_of_hexdigit (c : Char) (h : is_ascii_hexdigit c = true) :
    (utf8_encode_char c).length = 1 := by
  unfold is_ascii_hexdigit at h
  have h' := of_decide_eq_true h
  have hlt : c.toNat < 0x80 := by omega
  simp [utf8_encode_char, hlt]

lemma utf8_bytes_len_of_all_hex (l : List Char)
    (h : ∀ c ∈ l, is_ascii_hexdigit c = true) :
    (utf8_bytes l).length = l.length := by
  induction l with
  | nil => rfl
  | cons c rest ih =>
    simp only [utf8_bytes, List.length_append, List.length_cons]
    rw [utf8_len_of_hexdigit c (h c (by simp)), ih (fun x hx => h x (by simp [hx]))]
    omega

/-! ### Claims -/

/-- C4: `is_valid_token_format` returns true exactly on the strings of 64
characters that are all ASCII hexadecimal digits (either case); every string
of a different length, or containing a non-hex character, is rejected.
(For all-hex strings the Rust byte length and the character count agree,
which the proof establishes via `utf8_bytes_len_of_all_hex`.) -/
theorem claim4_token_format_characterisation (s : String) :
    is_valid_token_format s = true ↔
      (s.data.length = 64 ∧ ∀ c ∈ s.data, is_ascii_hexdigit c = true) := by
  unfold is_valid_token_format rust_str_len
  rw [Bool.and_eq_true, decide_eq_true_eq, List.all_eq_true]
  constructor
  · rintro ⟨hlen, hall⟩
    have hb := utf8_bytes_len_of_all_hex s.data hall
    exact ⟨by omega, hall⟩
  · rintro ⟨hlen, hall⟩
    have hb := utf8_bytes_len_of_all_hex s.data hall
    exact ⟨by omega, hall⟩

/-- C4 witness: a concrete all-hex 64-character string is accepted, via the
characterisation theorem. -/
theorem claim4_witness :
    is_valid_token_format
      "0123456789abcdef0123456789ABCDEF0123456789abcdef0123456789ABCDEF" = true :=
  (claim4_token_format_characterisation
      "0123456789abcdef0123456789ABCDEF0123456789abcdef0123456789ABCDEF").mpr
    (by decide)

/-- C5: an origin whose host is not an exact member of the allow-list is
rejected regardless of scheme (also when the origin does not parse at all),
and with `HACKERAI_ALLOWED_HOSTS` unset the four concrete examples evaluate
as the spec states. -/
theorem claim5_validate_origin_correct :
    (∀ (parse : String → Option Url) (env : Option String) (origin : String) (u : Url),
        parse origin = some u →
        u.host.getD "" ∉ get_allowed_hosts env →
        validate_origin parse env origin = false)
    ∧ (∀ (parse : String → Option Url) (env : Option String) (origin : String),
        parse origin = none → validate_origin parse env origin = false)
    ∧ validate_origin parse_simple none "https://hackerai.co" = true
    ∧ validate_origin parse_simple none "http://hackerai.co" = false
    ∧ validate_origin parse_simple none "http://localhost" = true
    ∧ validate_origin parse_simple none "https://evil.com" = false := by
  refine ⟨?_, ?_, by decide, by decide, by decide, by decide⟩
  · intro parse env origin u hp hmem
    have hany : ((get_allowed_hosts env).any fun allowed =>
        (u.host.getD "" == allowed)) = false := by
      cases hcase : ((get_allowed_hosts env).any fun allowed =>
          (u.host.getD "" == allowed)) with
      | false => rfl
      | true =>
        exfalso
        obtain ⟨a, ha, hbeq⟩ := List.any_eq_true.mp hcase
        exact hmem (by rw [show u.host.getD "" = a from beq_iff_eq.mp hbeq]; exact ha)
    unfold validate_origin
    rw [hp]
    simp [hany]
  · intro parse env origin hp
    unfold validate_origin
    rw [hp]

/-- C5 witness: the universal part applied at a concrete parser, origin and
environment whose host is outside the allow-list. -/
theorem claim5_witness :
    validate_origin (fun _ => some ⟨"https", some "nope.example", "/", []⟩) none
      "https://nope.example" = false :=
  claim5_validate_origin_correct.1 (fun _ => some ⟨"https", some "nope.example", "/", []⟩)
    none "https://nope.example" ⟨"https", some "nope.example", "/", []⟩ rfl (by decide)

/-- C7 counterexample: the claim says unparseable throttle content always
yields `true` (fail open), but the code substitutes timestamp `0`, so at
current time `0` (a clock before the epoch) the check is suppressed. -/
theorem claim7_counterexample :
    should_check_for_updates true (some "notanumber") 0 = false := by decide

/-- C7 amended: with parseable content `t` the check fires exactly when
`now - t ≥ 86400` (saturating subtraction); an absent path or a read error
fails open; unparseable content is treated as timestamp `0`, so the check
fires exactly when `now ≥ 86400` (rather than unconditionally, as the claim
stated). -/
theorem claim7_amended :
    (∀ (now : Nat) (content : String) (t : Nat),
        parse_u64 (rust_trim content) = some t →
        (should_check_for_updates true (some content) now = true ↔ 86400 ≤ now - t))
    ∧ (∀ now : Nat, should_check_for_updates true none now = true)
    ∧ (∀ (readResult : Option String) (now : Nat),
        should_check_for_updates false readResult now = true)
    ∧ (∀ (now : Nat) (content : String),
        parse_u64 (rust_trim content) = none →
        (should_check_for_updates true (some content) now = true ↔ 86400 ≤ now)) := by
  refine ⟨?_, fun now => rfl, fun r now => rfl, ?_⟩
  · intro now content t hp
    unfold should_check_for_updates
    simp [hp, UPDATE_CHECK_INTERVAL]
  · intro now content hp
    unfold should_check_for_updates
    simp [hp, UPDATE_CHECK_INTERVAL]

/-- C7 witness: content `0` at time `86400` is exactly due, via the amended
theorem. -/
theorem claim7_witness :
    should_check_for_updates true (some "0") 86400 = true :=
  (claim7_amended.1 86400 "0" 0 (by decide)).mpr (by decide)

/-- C10: a persisted timestamp in the future saturates the elapsed-time
subtraction to zero and suppresses the check until the current time is at
least 86400 seconds past the stored value. -/
theorem claim10_future_timestamp (now : Nat) (content : String) (t : Nat)
    (hp : parse_u64 (rust_trim content) = some t) :
    (now < t → now - t = 0)
    ∧ (now < t + 86400 → should_check_for_updates true (some content) now = false) := by
  constructor
  · omega
  · intro hlt
    unfold should_check_for_updates
    simp only [Bool.not_true, if_false, Option.getD_some, hp]
    simp [UPDATE_CHECK_INTERVAL]
    omega

/-- C10 witness: a throttle file dated five seconds in the future suppresses
the check at time zero. -/
theorem claim10_witness :
    (0 : Nat) - 5 = 0 ∧ should_check_for_updates true (some "5") 0 = false := by
  have h := claim10_future_timestamp 0 "5" 5 (by decide)
  exact ⟨h.1 (by decide), h.2 (by decide)⟩

/-- C2 counterexample: the claim says a silent check never shows a dialog for
any outcome, but when the check finds an available update the
"Update Available" dialog is shown even in silent mode (the `silent` flag
guards only the error and no-update branches). -/
theorem claim2_counterexample :
    UpdEffect.dialog "Update Available"
        "A new version (1.2.3) is available. Would you like to update now?"
      ∈ check_for_updates
          ⟨Except.ok (), Except.ok (some "1.2.3"), false, Except.ok (), false⟩ true := by
  decide

/-- C2 amended: in silent mode the outcome is only logged — no dialog, no
install, no restart — whenever the updater is unavailable, the check errors,
or no update is available; only a found update triggers the interactive
dialog flow even in silent mode. -/
theorem claim2_amended (env : UpdateEnv)
    (h : (∃ e, env.updater = Except.error e) ∨
      ∀ v, env.checkResult ≠ Except.ok (some v)) :
    (check_for_updates env true).all is_log_effect = true := by
  obtain ⟨upd, chk, acc, inst, rst⟩ := env
  rcases h with ⟨e, he⟩ | h
  · simp only at he
    subst he
    simp [check_for_updates, is_log_effect]
  · cases upd with
    | error e => simp [check_for_updates, is_log_effect]
    | ok u =>
      cases chk with
      | error e => simp [check_for_updates, is_log_effect]
      | ok o =>
        cases o with
        | none => simp [check_for_updates, is_log_effect]
        | some v => exact absurd rfl (h v)

/-- C2 witness: the amended theorem applied to a concrete silent check whose
updater construction fails. -/
theorem claim2_witness :
    (check_for_updates ⟨Except.error "boom", Except.ok none, false, Except.ok (), false⟩
        true).all is_log_effect = true :=
  claim2_amended ⟨Except.error "boom", Except.ok none, false, Except.ok (), false⟩
    (Or.inl ⟨"boom", rfl⟩)

/-- C8: the restart primitive is invoked exactly when an update was found,
the user confirmed installation, the installation succeeded, and the user
confirmed "Restart Now"; declining any prompt or an install failure never
restarts. -/
theorem claim8_restart_conditions (env : UpdateEnv) (silent : Bool) :
    UpdEffect.restart ∈ check_for_updates env silent ↔
      (env.updater = Except.ok () ∧ (∃ v, env.checkResult = Except.ok (some v)) ∧
       env.userAccepts = true ∧ env.installResult = Except.ok () ∧
       env.userRestartNow = true) := by
  obtain ⟨upd, chk, acc, inst, rst⟩ := env
  cases upd with
  | error e => cases silent <;> simp [check_for_updates]
  | ok u =>
    cases u
    cases chk with
    | error e => cases silent <;> simp [check_for_updates]
    | ok o =>
      cases o with
      | none => cases silent <;> simp [check_for_updates]
      | some v =>
        cases acc with
        | false => simp [check_for_updates]
        | true =>
          cases inst with
          | error e => simp [check_for_updates]
          | ok w =>
            cases w
            cases rst <;> simp [check_for_updates]

/-- C8 witness: the full accept-install-restart path at concrete inputs does
restart, via the equivalence. -/
theorem claim8_witness :
    UpdEffect.restart ∈
      check_for_updates ⟨Except.ok (), Except.ok (some "9.9.9"), true, Except.ok (), true⟩
        false :=
  (claim8_restart_conditions
      ⟨Except.ok (), Except.ok (some "9.9.9"), true, Except.ok (), true⟩ false).mpr
    ⟨rfl, ⟨"9.9.9", rfl⟩, rfl, rfl, rfl⟩

lemma string_append_assoc (a b c : String) : a ++ b ++ c = a ++ (b ++ c) := by
  obtain ⟨a⟩ := a
  obtain ⟨b⟩ := b
  obtain ⟨c⟩ := c
  show String.mk (a ++ b ++ c) = String.mk (a ++ (b ++ c))
  rw [List.append_assoc]

/-- Any navigation emitted by the handler happens in the valid-token branch
and targets a URL based on the selected origin. -/
lemma navigate_mem_handle {parse : String → Option Url} {env : Option String}
    {mw : Bool} {navOk : String → Bool} {u : Url} {c : String}
    (h : Effect.navigate c ∈ handle_auth_deep_link parse env mw navOk u) :
    ∃ token, find_pair u.queryPairs "token" = some token ∧
      is_valid_token_format token = true ∧
      ∃ rest, c = (select_origin parse env u.queryPairs).1 ++ rest := by
  unfold handle_auth_deep_link at h
  split at h
  · simp at h
  · split at h
    · split at h
      · rename_i token heq
        split at h
        · simp at h
        · rename_i hvalid
          simp only [Bool.not_eq_true', Bool.not_eq_false] at hvalid
          split at h
          · refine ⟨token, heq, hvalid, ?_⟩
            simp only [] at h
            rw [List.mem_append, List.mem_append] at h
            rcases h with (h | h) | h
            · split at h <;> simp at h
            · simp at h
            · split at h
              · split at h
                · simp at h
                  exact ⟨"/desktop-callback?token=" ++ byte_serialize (utf8_bytes token.data),
                    by rw [h, string_append_assoc]⟩
                · simp at h
                  rcases h with h | h
                  · exact ⟨"/desktop-callback?token=" ++ byte_serialize (utf8_bytes token.data),
                      by rw [h, string_append_assoc]⟩
                  · split at h
                    · simp at h
                      exact ⟨"/login?error=navigation_failed", h⟩
                    · simp at h
              · simp at h
          · simp at h
      · split at h <;> simp at h
    · simp at h

/-- C3: a token is forwarded (navigated) only if `is_valid_token_format`
holds for it, and a token failing the format check makes the handler log an
error and perform no navigation at all. -/
theorem claim3_token_gate :
    (∀ (parse : String → Option Url) (env : Option String) (mw : Bool)
        (navOk : String → Bool) (u : Url) (c : String),
        Effect.navigate c ∈ handle_auth_deep_link parse env mw navOk u →
        ∃ token, find_pair u.queryPairs "token" = some token ∧
          is_valid_token_format token = true)
    ∧ (∀ (parse : String → Option Url) (env : Option String) (mw : Bool)
        (navOk : String → Bool) (u : Url) (token : String),
        u.scheme = "hackerai" →
        (u.host == some "auth" || u.path == "/auth" || u.path == "auth") = true →
        find_pair u.queryPairs "token" = some token →
        is_valid_token_format token = false →
        handle_auth_deep_link parse env mw navOk u =
          [Effect.logError "Invalid token format in deep link"]) := by
  constructor
  · intro parse env mw navOk u c h
    obtain ⟨token, hfind, hvalid, -⟩ := navigate_mem_handle h
    exact ⟨token, hfind, hvalid⟩
  · intro parse env mw navOk u token hscheme hauth hfind hinvalid
    unfold handle_auth_deep_link
    rw [if_neg (by simp [hscheme])]
    rw [if_pos (by simp [hauth]), hfind]
    simp [hinvalid]

/-- C3 witness: a concrete auth deep link with a malformed token is rejected
with the error log and no navigation, via the gate theorem. -/
theorem claim3_witness :
    handle_auth_deep_link parse_simple none true (fun _ => true)
        ⟨"hackerai", some "auth", "", [("token", "zz")]⟩ =
      [Effect.logError "Invalid token format in deep link"] :=
  claim3_token_gate.2 parse_simple none true (fun _ => true)
    ⟨"hackerai", some "auth", "", [("token", "zz")]⟩ "zz" rfl (by decide) (by decide)
    (by decide)

/-- C9: with a well-formed token and no main window the handler is a silent
no-op (empty effect trace), while an invalid token format is logged as an
error whether or not the main window exists, because the format check
precedes the window lookup. -/
theorem claim9_no_window_frame :
    (∀ (parse : String → Option Url) (env : Option String) (navOk : String → Bool)
        (u : Url) (token : String),
        find_pair u.queryPairs "token" = some token →
        is_valid_token_format token = true →
        handle_auth_deep_link parse env false navOk u = [])
    ∧ (∀ (parse : String → Option Url) (env : Option String) (mw : Bool)
        (navOk : String → Bool) (u : Url) (token : String),
        u.scheme = "hackerai" →
        (u.host == some "auth" || u.path == "/auth" || u.path == "auth") = true →
        find_pair u.queryPairs "token" = some token →
        is_valid_token_format token = false →
        handle_auth_deep_link parse env mw navOk u =
          [Effect.logError "Invalid token format in deep link"]) := by
  constructor
  · intro parse env navOk u token hfind hvalid
    unfold handle_auth_deep_link
    split
    · rfl
    · split
      · rw [hfind]
        simp [hvalid]
      · rfl
  · intro parse env mw navOk u token hscheme hauth hfind hinvalid
    unfold handle_auth_deep_link
    rw [if_neg (by simp [hscheme])]
    rw [if_pos (by simp [hauth]), hfind]
    simp [hinvalid]

/-- C9 witness: a concrete valid-token auth link with no main window
produces no effects, via the frame theorem. -/
theorem claim9_witness :
    handle_auth_deep_link parse_simple none false (fun _ => true)
        ⟨"hackerai", some "auth", "",
         [("token", "0000000000000000000000000000000000000000000000000000000000000000")]⟩
      = [] :=
  claim9_no_window_frame.1 parse_simple none (fun _ => true)
    ⟨"hackerai", some "auth", "",
     [("token", "0000000000000000000000000000000000000000000000000000000000000000")]⟩
    "0000000000000000000000000000000000000000000000000000000000000000"
    (by decide) (by decide)

/-- C1 counterexample: with `HACKERAI_ALLOWED_HOSTS` set to `evil.com`, a
valid-token deep link without an origin parameter still navigates to the
production fallback, whose origin `https://hackerai.co` fails
`validate_origin` under that allow-list — so the fallback origin is not
validated for every environment setting, contrary to the claim. -/
theorem claim1_counterexample :
    validate_origin parse_simple (some "evil.com") "https://hackerai.co" = false
    ∧ Effect.navigate ("https://hackerai.co/desktop-callback?token=" ++
        byte_serialize (utf8_bytes
          ("0000000000000000000000000000000000000000000000000000000000000000").data))
      ∈ handle_auth_deep_link parse_simple (some "evil.com") true (fun _ => true)
          ⟨"hackerai", some "auth", "",
           [("token",
             "0000000000000000000000000000000000000000000000000000000000000000")]⟩ :=
  ⟨by decide, by decide⟩

/-- C1 amended: every origin accepted from the `origin` query parameter
satisfies `validate_origin`; when that parameter is missing or invalid the
fixed production origin `https://hackerai.co` is used as the redirect base,
and that fallback passes `validate_origin` under the default allow-list
(`HACKERAI_ALLOWED_HOSTS` unset) — but not necessarily under every setting
of `HACKERAI_ALLOWED_HOSTS`.  Every navigated URL is based on the selected
origin. -/
theorem claim1_amended :
    (∀ (parse : String → Option Url) (env : Option String)
        (pairs : List (String × String)) (o : String),
        select_origin parse env pairs = (o, false) →
        validate_origin parse env o = true)
    ∧ (∀ (parse : String → Option Url) (env : Option String)
        (pairs : List (String × String)) (o : String),
        select_origin parse env pairs = (o, true) → o = "https://hackerai.co")
    ∧ (∀ (parse : String → Option Url) (env : Option String) (mw : Bool)
        (navOk : String → Bool) (u : Url) (c : String),
        Effect.navigate c ∈ handle_auth_deep_link parse env mw navOk u →
        ∃ rest, c = (select_origin parse env u.queryPairs).1 ++ rest)
    ∧ validate_origin parse_simple none "https://hackerai.co" = true := by
  refine ⟨?_, ?_, ?_, by decide⟩
  · intro parse env pairs o hsel
    unfold select_origin at hsel
    cases hfp : find_pair pairs "origin" with
    | none => rw [hfp] at hsel; simp [Option.filter] at hsel
    | some v =>
      rw [hfp] at hsel
      by_cases hv : validate_origin parse env v = true
      · simp [Option.filter, hv] at hsel
        rw [← hsel]
        exact hv
      · simp [Option.filter, Bool.eq_false_iff.mpr hv] at hsel
  · intro parse env pairs o hsel
    unfold select_origin at hsel
    cases hfp : find_pair pairs "origin" with
    | none =>
      rw [hfp] at hsel
      simp [Option.filter] at hsel
      exact hsel.symm
    | some v =>
      rw [hfp] at hsel
      by_cases hv : validate_origin parse env v = true
      · simp [Option.filter, hv] at hsel
      · simp [Option.filter, Bool.eq_false_iff.mpr hv] at hsel
        exact hsel.symm
  · intro parse env mw navOk u c h
    obtain ⟨token, -, -, rest, hrest⟩ := navigate_mem_handle h
    exact ⟨rest, hrest⟩

/-- C1 amended witness: a deep link carrying a valid origin selects it
without warning, and the selected origin passes validation, via the first
conjunct at concrete inputs. -/
theorem claim1_witness :
    validate_origin parse_simple none
      ((select_origin parse_simple none [("origin", "https://hackerai.co")]).1) = true :=
  claim1_amended.1 parse_simple none [("origin", "https://hackerai.co")]
    ((select_origin parse_simple none [("origin", "https://hackerai.co")]).1)
    (by decide)

/-- C6: a valid-token deep link with origin `https://hackerai.co` navigates
to `https://hackerai.co/desktop-callback?token=<url-encoded token>` (with no
warning), and the same link without an origin parameter logs the
missing-origin warning and navigates to the production fallback callback.
The external parser and navigation result are constrained only where the
source consults them. -/
theorem claim6_happy_path (parse : String → Option Url) (navOk : String → Bool)
    (T : String) (pu : Url)
    (hT : is_valid_token_format T = true)
    (hparse : parse "https://hackerai.co" = some pu)
    (hscheme : pu.scheme = "https") (hhost : pu.host = some "hackerai.co")
    (hcb : (parse ("https://hackerai.co/desktop-callback?token=" ++
        byte_serialize (utf8_bytes T.data))).isSome = true)
    (hnav : navOk ("https://hackerai.co/desktop-callback?token=" ++
        byte_serialize (utf8_bytes T.data)) = true) :
    (handle_auth_deep_link parse none true navOk
        ⟨"hackerai", some "auth", "", [("token", T), ("origin", "https://hackerai.co")]⟩ =
      [Effect.logInfo ("Navigating to desktop callback (token: " ++ take_chars T 8 ++ "...)"),
       Effect.navigate ("https://hackerai.co/desktop-callback?token=" ++
         byte_serialize (utf8_bytes T.data))])
    ∧ (handle_auth_deep_link parse none true navOk
        ⟨"hackerai", some "auth", "", [("token", T)]⟩ =
      [Effect.logWarn "Deep link has missing or invalid origin, using production",
       Effect.logInfo ("Navigating to desktop callback (token: " ++ take_chars T 8 ++ "...)"),
       Effect.navigate ("https://hackerai.co/desktop-callback?token=" ++
         byte_serialize (utf8_bytes T.data))]) := by
  have hval : validate_origin parse none "https://hackerai.co" = true := by
    unfold validate_origin
    rw [hparse]
    simp [hhost, hscheme, get_allowed_hosts]
  obtain ⟨cu, hcu⟩ := Option.isSome_iff_exists.mp hcb
  have hfindT : find_pair [("token", T), ("origin", "https://hackerai.co")] "token" =
      some T := by
    simp [find_pair, List.find?]
  have hfindO : find_pair [("token", T), ("origin", "https://hackerai.co")] "origin" =
      some "https://hackerai.co" := by
    simp [find_pair, List.find?]
  have hfindT2 : find_pair [("token", T)] "token" = some T := by
    simp [find_pair, List.find?]
  have hfindO2 : find_pair [("token", T)] "origin" = none := by
    simp [find_pair, List.find?]
  have hsel1 : select_origin parse none [("token", T), ("origin", "https://hackerai.co")] =
      ("https://hackerai.co", false) := by
    unfold select_origin
    rw [hfindO]
    simp [Option.filter, hval]
  have hsel2 : select_origin parse none [("token", T)] = ("https://hackerai.co", true) := by
    unfold select_origin
    rw [hfindO2]
    simp [Option.filter]
  constructor
  · unfold handle_auth_deep_link
    rw [if_neg (by simp), if_pos (by simp), hfindT]
    simp only [hT, Bool.not_true, Bool.false_eq_true, if_false, if_true, hsel1]
    simp [hcu, hnav]
  · unfold handle_auth_deep_link
    rw [if_neg (by simp), if_pos (by simp), hfindT2]
    simp only [hT, Bool.not_true, Bool.false_eq_true, if_false, if_true, hsel2]
    simp [hcu, hnav]

/-- C6 witness: the happy path evaluated at a concrete 64-hex token with the
concrete parser. -/
theorem claim6_witness :
    handle_auth_deep_link parse_simple none true (fun _ => true)
        ⟨"hackerai", some "auth", "",
         [("token", "0123456789abcdef0123456789abcdef0123456789abcdef0123456789abcdef"),
          ("origin", "https://hackerai.co")]⟩ =
      [Effect.logInfo ("Navigating to desktop callback (token: " ++
         take_chars "0123456789abcdef0123456789abcdef0123456789abcdef0123456789abcdef" 8 ++
         "...)"),
       Effect.navigate ("https://hackerai.co/desktop-callback?token=" ++
         byte_serialize (utf8_bytes
           ("0123456789abcdef0123456789abcdef0123456789abcdef0123456789abcdef").data))] :=
  (claim6_happy_path parse_simple (fun _ => true)
    "0123456789abcdef0123456789abcdef0123456789abcdef0123456789abcdef"
    ⟨"https", some "hackerai.co", "/", []⟩
    (by decide) (by decide) rfl rfl (by decide) rfl).1

end HackerAI
